import Mathlib

/-!
Verification development for the labeled-array core of the dnpLab repository
(`dnpLab/dnpData.py`, `dnpLab/nddata_axis.py`).

The Python classes are shallowly embedded:

* numpy n-dimensional buffers become `NDArray`: a `shape : List Nat` together
  with a total function from index tuples to entries.  Numeric entries are
  modelled over `ℤ` for the labeled-array buffers (the properties settled here
  are dtype-independent structural facts and ring identities) and over `ℚ`
  for the axis module (where division by the step occurs).
* mutating methods become functions from the pre-state to the post-state
  (or to `Except PyErr _` when the Python code can raise).
* Python exceptions become the `PyErr` inductive; `print`-and-`return None`
  soft failures become `Option.none` results.
-/

/-- Kinds of Python exceptions raised by the embedded code paths. -/
inductive PyErr where
  | valueError (msg : String)
  | keyError (msg : String)
  | typeError (msg : String)
  | attributeError (msg : String)
  | indexError (msg : String)
  deriving DecidableEq, Repr

/-- An n-dimensional numeric buffer: a shape together with a total map from
index tuples (read positionally, row-major) to entries.  Out-of-range indices
are read through `List.getD` defaults; theorems only ever evaluate `data` at
in-range indices. -/
structure NDArray where
  shape : List Nat
  data : List Nat → ℤ

/-- Enumerate all in-range index tuples of a shape in row-major order. -/
def NDArray.allIdx : List Nat → List (List Nat)
  | [] => [[]]
  | n :: rest => (List.range n).flatMap fun i => (NDArray.allIdx rest).map (i :: ·)

/-- Row-major list of all entries of the buffer (used to evaluate concrete
examples). -/
def NDArray.toFlat (A : NDArray) : List ℤ :=
  (NDArray.allIdx A.shape).map A.data

/-- Build a 1-D buffer from a list. -/
def NDArray.ofList1 (l : List ℤ) : NDArray :=
  ⟨[l.length], fun idx => l.getD (idx.getD 0 0) 0⟩

/-- Build a 2-D buffer from a rectangular list of rows. -/
def NDArray.ofList2 (rows : List (List ℤ)) : NDArray :=
  ⟨[rows.length, (rows.headD []).length],
    fun idx => (rows.getD (idx.getD 0 0) []).getD (idx.getD 1 0) 0⟩

/-- The labeled array of `dnpData.py`: `values` buffer, `dims` axis labels,
per-axis coordinate vectors `coords`, and free-form `attrs`.  The
`proc_attrs` log (always initialised to `[]` and only appended to by
`add_proc_attrs`) plays no role in the claims and is omitted. -/
structure dnpData where
  values : NDArray
  dims : List String
  coords : List (List ℤ)
  attrs : List (String × ℤ)

/-- Embedding of `dnpData.__init__(values, coords, dims, attrs)`: the Python
method only assigns the given arguments to the object's attributes (plus
`proc_attrs = []`); it performs no validation of any kind. -/
def dnpData.init (values : NDArray) (coords : List (List ℤ)) (dims : List String)
    (attrs : List (String × ℤ)) : dnpData :=
  ⟨values, dims, coords, attrs⟩

/-- `coords` matches a shape: same length and pointwise `len(coords[i]) = shape[i]`. -/
def shapeMatch : List (List ℤ) → List Nat → Bool
  | [], [] => true
  | c :: cs, s :: ss => c.length == s && shapeMatch cs ss
  | _, _ => false

/-- The spec's core invariant of §3: `len(dims) == len(coords) == values.ndim`
and `len(coords[i]) == values.shape[i]` for every axis `i`. -/
def dnpData.consistentB (d : dnpData) : Bool :=
  d.dims.length == d.coords.length && shapeMatch d.coords d.values.shape

/-- C1 (amended): construction performs no validation — `dnpData.__init__`
stores `values`, `dims`, `coords`, `attrs` exactly as given and always
succeeds, even for inputs violating the core invariant. -/
theorem C1_init_stores_fields_unvalidated (v : NDArray) (c : List (List ℤ))
    (dm : List String) (a : List (String × ℤ)) :
    (dnpData.init v c dm a).values = v ∧ (dnpData.init v c dm a).dims = dm ∧
      (dnpData.init v c dm a).coords = c ∧ (dnpData.init v c dm a).attrs = a :=
  ⟨rfl, rfl, rfl, rfl⟩

/-- C1 counterexample: constructing from a length-2 1-D buffer with
`dims = ['x','y']` and a single length-3 coordinate vector succeeds and
yields an object violating the core invariant — construction does not fail
with any shape error. -/
theorem C1_inconsistent_construction_succeeds :
    dnpData.consistentB
      (dnpData.init (NDArray.ofList1 [1, 2]) [[0, 1, 2]] ["x", "y"] []) = false := by
  decide

/-! ### Slicing (`dnpData.__getitem__`) -/

/-- Python slice-endpoint normalisation for an axis of length `n`: a negative
endpoint counts from the end (clamped below at 0), a nonnegative one is
clamped above at `n`. -/
def normIdx (n : Nat) (i : ℤ) : Nat :=
  if i < 0 then ((n : ℤ) + i).toNat else min i.toNat n

/-- Normalised start of a Python slice (`None` means 0). -/
def startOf (n : Nat) : Option ℤ → Nat
  | none => 0
  | some i => normIdx n i

/-- Normalised (exclusive) end of a Python slice (`None` means `n`). -/
def endOf (n : Nat) : Option ℤ → Nat
  | none => n
  | some i => normIdx n i

/-- Number of elements selected by a Python slice on an axis of length `n`. -/
def sliceLen (n : Nat) (a b : Option ℤ) : Nat :=
  endOf n b - startOf n a

/-- Python list slicing `l[a:b]` (step-free slices: the only slices
`__getitem__` builds itself are step-free, and the claims exercise no
stepped slice). -/
def pySlice (l : List ℤ) (a b : Option ℤ) : List ℤ :=
  (l.drop (startOf l.length a)).take (sliceLen l.length a b)

/-- A selector token paired with a dimension name in `__getitem__`'s
alternating index tuple: either a bare integer or a slice object. -/
inductive Sel where
  | int (k : ℤ)
  | slc (start stop : Option ℤ)
  deriving DecidableEq, Repr

/-- Per-axis slice resolution of `dnpData.__getitem__` (lines 75–86): a named
integer `-1` becomes `slice(-1, None)`, any other named integer `k` becomes
`slice(k, k+1)`, a named slice passes through, and an axis not named in the
selector defaults to `slice(0, len(coords[axis]))`. -/
def resolveSel (n : Nat) : Option Sel → Option ℤ × Option ℤ
  | some (.int k) => if k = -1 then (some (-1), none) else (some k, some (k + 1))
  | some (.slc a b) => (a, b)
  | none => (some 0, some (n : ℤ))

/-- Result shape of simultaneous per-axis slicing (axes beyond the slice list
are untouched, as for a short numpy index tuple). -/
def sliceShape : List Nat → List (Option ℤ × Option ℤ) → List Nat
  | [], _ => []
  | n :: ns, [] => n :: ns
  | n :: ns, sp :: sps => sliceLen n sp.1 sp.2 :: sliceShape ns sps

/-- Per-axis start offsets of simultaneous slicing. -/
def sliceStarts : List Nat → List (Option ℤ × Option ℤ) → List Nat
  | [], _ => []
  | _ :: ns, [] => 0 :: sliceStarts ns []
  | n :: ns, sp :: sps => startOf n sp.1 :: sliceStarts ns sps

/-- Simultaneous positional slicing of a buffer, `values[indices]` for a tuple
of slices. -/
def NDArray.sliceMulti (A : NDArray) (sl : List (Option ℤ × Option ℤ)) : NDArray :=
  ⟨sliceShape A.shape sl,
    fun idx => A.data (List.zipWith (· + ·) idx (sliceStarts A.shape sl))⟩

/-- Embedding of `dnpData.__getitem__` with the even-length alternating index
tuple presented as label/selector pairs (the Python code first splits the flat
tuple into `index[0::2]` labels and `index[1::2]` selectors; an odd-length
tuple is rejected before this point).  For each axis in order, the first
selector pair carrying that axis's label is resolved by `resolveSel`; then
`values` and every `coords` entry are sliced simultaneously and a copy is
returned. -/
def dnpData.getItem (d : dnpData) (index : List (String × Sel)) : dnpData :=
  let indices := d.dims.mapIdx fun ix label =>
    resolveSel (d.coords.getD ix []).length ((index.find? fun p => p.1 == label).map (·.2))
  { d with
    values := d.values.sliceMulti indices,
    coords := List.zipWith (fun c sp => pySlice c sp.1 sp.2) d.coords indices }

theorem normIdx_le (n : Nat) (i : ℤ) : normIdx n i ≤ n := by
  unfold normIdx
  split <;> omega

theorem endOf_le (n : Nat) (b : Option ℤ) : endOf n b ≤ n := by
  cases b with
  | none => exact Nat.le_refl n
  | some i => exact normIdx_le n i

theorem length_pySlice (l : List ℤ) (a b : Option ℤ) :
    (pySlice l a b).length = sliceLen l.length a b := by
  unfold pySlice
  rw [List.length_take, List.length_drop]
  have h := endOf_le l.length b
  unfold sliceLen
  omega

theorem pySlice_full (l : List ℤ) : pySlice l (some 0) (some (l.length : ℤ)) = l := by
  have hs : startOf l.length (some 0) = 0 := by
    unfold startOf normIdx
    simp
  have he : endOf l.length (some (l.length : ℤ)) = l.length := by
    unfold endOf normIdx
    simp
  unfold pySlice sliceLen
  rw [hs, he]
  simp

theorem shapeMatch_length {c : List (List ℤ)} {s : List Nat}
    (h : shapeMatch c s = true) : c.length = s.length := by
  induction c generalizing s with
  | nil => cases s with
    | nil => rfl
    | cons s0 ss => simp [shapeMatch] at h
  | cons cv cs ih => cases s with
    | nil => simp [shapeMatch] at h
    | cons s0 ss =>
      simp only [shapeMatch, Bool.and_eq_true] at h
      simpa using ih h.2

theorem shapeMatch_pySlice {c : List (List ℤ)} {s : List Nat}
    {sl : List (Option ℤ × Option ℤ)} (h : shapeMatch c s = true)
    (hlen : sl.length = c.length) :
    shapeMatch (List.zipWith (fun cv sp => pySlice cv sp.1 sp.2) c sl)
      (sliceShape s sl) = true := by
  induction c generalizing s sl with
  | nil =>
    cases s with
    | nil =>
      cases sl with
      | nil => simp [shapeMatch, sliceShape]
      | cons sp sps => simp at hlen
    | cons s0 ss => simp [shapeMatch] at h
  | cons cv cs ih =>
    cases s with
    | nil => simp [shapeMatch] at h
    | cons s0 ss =>
      cases sl with
      | nil => simp at hlen
      | cons sp sps =>
        simp only [shapeMatch, Bool.and_eq_true, beq_iff_eq] at h
        simp only [List.zipWith_cons_cons, sliceShape, shapeMatch,
          Bool.and_eq_true, beq_iff_eq]
        refine ⟨?_, ih h.2 (by simpa using hlen)⟩
        rw [length_pySlice, h.1]

theorem consistentB_getItem {d : dnpData} (idxList : List (String × Sel))
    (h : d.consistentB = true) : (d.getItem idxList).consistentB = true := by
  unfold dnpData.consistentB at h ⊢
  rw [Bool.and_eq_true, beq_iff_eq] at h
  obtain ⟨h1, h2⟩ := h
  unfold dnpData.getItem NDArray.sliceMulti
  rw [Bool.and_eq_true, beq_iff_eq]
  constructor
  · simp [List.length_zipWith, h1]
  · exact shapeMatch_pySlice h2 (by simp [h1])

theorem getItem_coords_unnamed {d : dnpData} (idxList : List (String × Sel))
    (i : Nat) (c : List ℤ) (h : d.consistentB = true) (hc : d.coords[i]? = some c)
    (hfind : idxList.find? (fun p => p.1 == d.dims.getD i "") = none) :
    (d.getItem idxList).coords[i]? = some c := by
  unfold dnpData.consistentB at h
  rw [Bool.and_eq_true, beq_iff_eq] at h
  obtain ⟨h1, _⟩ := h
  have hic : i < d.coords.length := by
    by_contra hlt
    rw [List.getElem?_eq_none (by omega)] at hc
    exact Option.noConfusion hc
  have hid : i < d.dims.length := by omega
  have hcg : d.coords[i] = c := by
    rw [List.getElem?_eq_getElem hic] at hc
    exact Option.some.inj hc
  unfold dnpData.getItem
  have hlen : i < (List.zipWith (fun cv sp => pySlice cv sp.1 sp.2) d.coords
      (d.dims.mapIdx fun ix label =>
        resolveSel (d.coords.getD ix []).length
          ((idxList.find? fun p => p.1 == label).map (·.2)))).length := by
    simp [List.length_zipWith]
    omega
  have hmid : i < (d.dims.mapIdx fun ix label =>
      resolveSel (d.coords.getD ix []).length
        ((idxList.find? fun p => p.1 == label).map (·.2))).length := by
    simpa using hid
  rw [List.getElem?_eq_getElem hlen, List.getElem_zipWith]
  congr 1
  have hmi : (d.dims.mapIdx fun ix label =>
      resolveSel (d.coords.getD ix []).length
        ((idxList.find? fun p => p.1 == label).map (·.2)))[i] =
      resolveSel (d.coords.getD i []).length
        ((idxList.find? fun p => p.1 == d.dims[i]).map (·.2)) := by
    rw [List.getElem_mapIdx]
  have hlab : d.dims[i] = d.dims.getD i "" := (List.getD_eq_getElem d.dims "" hid).symm
  have hcd : d.coords.getD i [] = c := by
    rw [List.getD_eq_getElem d.coords [] hic, hcg]
  rw [hmi, hlab, hfind]
  simp only [Option.map_none', resolveSel]
  rw [hcd, hcg]
  exact pySlice_full c

/-- The 1-D example array of the spec's indexing scenario:
`dims=['x']`, `coords=[[0,1,2,3]]`, `values=[10,20,30,40]`. -/
def exA1 : dnpData :=
  dnpData.init (NDArray.ofList1 [10, 20, 30, 40]) [[0, 1, 2, 3]] ["x"] []

/-- C2: `__getitem__` resolves an integer `k` to the slice `[k, k+1)` and `-1`
to `slice(-1, None)`, passes slices through, defaults unnamed dimensions to
their full range, and returns a copy with `values` and every `coords` entry
re-sliced consistently.  Stated as: (1) the spec's concrete scenario
`A['x', 1]` yields `values=[20]`, `coords=[[1]]`; (2) for every consistent
array and selector list the result keeps the dims list and stays consistent
(values and coords re-sliced to matching lengths); (3) an axis not named in
the selector keeps its full coordinate vector. -/
theorem C2_getitem_spec :
    ((exA1.getItem [("x", Sel.int 1)]).values.toFlat = [20] ∧
      (exA1.getItem [("x", Sel.int 1)]).coords = [[1]] ∧
      (exA1.getItem [("x", Sel.int 1)]).dims = ["x"]) ∧
    (∀ (d : dnpData) (idxList : List (String × Sel)), d.consistentB = true →
      (d.getItem idxList).dims = d.dims ∧ (d.getItem idxList).consistentB = true) ∧
    (∀ (d : dnpData) (idxList : List (String × Sel)) (i : Nat) (c : List ℤ),
      d.consistentB = true → d.coords[i]? = some c →
      idxList.find? (fun p => p.1 == d.dims.getD i "") = none →
      (d.getItem idxList).coords[i]? = some c) := by
  refine ⟨by decide, fun d idxList h => ⟨rfl, consistentB_getItem idxList h⟩,
    fun d idxList i c h hc hfind => getItem_coords_unnamed idxList i c h hc hfind⟩

/-- Witness for C2: the hypotheses of the quantified parts hold at the
concrete example array. -/
theorem C2_getitem_spec_witness :
    dnpData.consistentB exA1 = true ∧
      (exA1.getItem [("y", Sel.int 0)]).consistentB = true ∧
      (exA1.getItem [("y", Sel.int 0)]).coords[0]? = some [0, 1, 2, 3] :=
  ⟨by decide, (C2_getitem_spec.2.1 exA1 [("y", Sel.int 0)] (by decide)).2,
    C2_getitem_spec.2.2 exA1 [("y", Sel.int 0)] 0 [0, 1, 2, 3] (by decide) (by decide)
      (by decide)⟩

/-! ### Axis permutation, `sort`, `reorder`, `concatenateAlong` -/

/-- Lexicographic code-point comparison of character lists — Python's string
ordering, written out so that it evaluates by kernel reduction. -/
def charsLe : List Char → List Char → Bool
  | [], _ => true
  | _ :: _, [] => false
  | a :: as, b :: bs =>
    if a.toNat < b.toNat then true
    else if b.toNat < a.toNat then false
    else charsLe as bs

/-- Boolean string comparison used to model Python's `sorted` on label lists
(code-point lexicographic, as in Python). -/
def strLe (a b : String) : Bool := charsLe a.data b.data

/-- Embedding of `np.transpose(values, perm)`: axis `t` of the result is axis
`perm[t]` of the input. -/
def NDArray.transpose (A : NDArray) (perm : List Nat) : NDArray :=
  ⟨perm.map (A.shape.getD · 0),
    fun idx => A.data ((List.range perm.length).map fun p => idx.getD (perm.indexOf p) 0)⟩

/-- Apply an axis permutation simultaneously to `values`, `dims` and `coords` —
the common tail of the Python `sort` and `reorder` methods. -/
def dnpData.applyPerm (d : dnpData) (perm : List Nat) : dnpData :=
  ⟨d.values.transpose perm, perm.map (d.dims.getD · ""), perm.map (d.coords.getD · []),
    d.attrs⟩

/-- `ix_sort = sorted(range(len(dims)), key=lambda k: dims[k])` of
`dnpData.sort`. -/
def dnpData.sortPerm (d : dnpData) : List Nat :=
  (List.range d.dims.length).mergeSort fun i j =>
    strLe (d.dims.getD i "") (d.dims.getD j "")

/-- Embedding of the in-place `dnpData.sort` method as pre-state → post-state:
reorders axes lexicographically by label. -/
def dnpData.sort (d : dnpData) : dnpData := d.applyPerm d.sortPerm

/-- Embedding of the in-place `dnpData.reorder` method (pre-state →
post-state).  When the requested label list is not a permutation of the
current dims, labels absent from `dims` cause a diagnostic and no state
change, and labels of `dims` missing from the request are appended in their
original relative order. -/
def dnpData.reorder (d : dnpData) (dims0 : List String) : dnpData :=
  if dims0.mergeSort strLe = d.dims.mergeSort strLe then
    d.applyPerm (dims0.map fun k => d.dims.indexOf k)
  else if dims0.all fun l => d.dims.contains l then
    d.applyPerm ((dims0 ++ d.dims.filter fun l => !dims0.contains l).map
      fun k => d.dims.indexOf k)
  else d

/-- The buffer `np.concatenate((A, B), axis=k)` produces when it succeeds:
axis `k` is the sum of the two lengths, indices below `A`'s extent read from
`A`, the rest from `B`. -/
def NDArray.concatPayload (A B : NDArray) (k : Nat) : NDArray :=
  ⟨A.shape.set k (A.shape.getD k 0 + B.shape.getD k 0),
    fun idx =>
      if idx.getD k 0 < A.shape.getD k 0 then A.data idx
      else B.data (idx.set k (idx.getD k 0 - A.shape.getD k 0))⟩

/-- Embedding of `np.concatenate((A, B), axis=k)`: numpy raises `ValueError`
unless the two operands have the same rank and identical shapes on every axis
other than `k` (an out-of-range `k` raises numpy's AxisError, a `ValueError`
subclass, folded into the same error here). -/
def NDArray.concatAxis (A B : NDArray) (k : Nat) : Except PyErr NDArray :=
  if k < A.shape.length ∧ A.shape.length = B.shape.length ∧
      ∀ i < A.shape.length, i ≠ k → A.shape.getD i 0 = B.shape.getD i 0 then
    .ok (A.concatPayload B k)
  else
    .error (.valueError
      "all the input array dimensions except for the concatenation axis must match exactly")

/-- Embedding of `dnpData.concatenateAlong(newData, axesLabel)`.  The Python
method first captures `reorderLabels = self.dims` (an alias to the pre-sort
list object, which survives because `sort` rebinds `self.dims` to a fresh
list), sorts both operands in place, compares dims, concatenates `values` and
the coordinate vector at the axis position, and finally restores only `self`'s
original dimension order.  It returns the post-states of both operands
(`self`, then `newData`); on failure both operands have already been sorted in
place, but only the raised error is modelled. -/
def dnpData.concatenateAlong (d newData : dnpData) (axesLabel : String) :
    Except PyErr (dnpData × dnpData) :=
  let reorderLabels := d.dims
  let s := d.sort
  let n := newData.sort
  if s.dims = n.dims then
    if axesLabel ∈ s.dims then
      match s.values.concatAxis n.values (s.dims.indexOf axesLabel) with
      | .ok v =>
        let s2 : dnpData := { s with
          values := v,
          coords := s.coords.set (s.dims.indexOf axesLabel)
            (s.coords.getD (s.dims.indexOf axesLabel) [] ++
              n.coords.getD (s.dims.indexOf axesLabel) []) }
        .ok (s2.reorder reorderLabels, n)
      | .error e => .error e
    else .error (.valueError "axesLabel is not in list")
  else .error (.valueError "dims do not match")

/-- Length of the axis labelled `l` (the `len` method:
`np.shape(values)[dims.index(l)]`). -/
def dnpData.lenAlong (d : dnpData) (l : String) : Nat :=
  d.values.shape.getD (d.dims.indexOf l) 0

/-- Coordinate vector of the axis labelled `l` (the `getAxes` method). -/
def dnpData.coordsAlong (d : dnpData) (l : String) : List ℤ :=
  d.coords.getD (d.dims.indexOf l) []

theorem map_getD_range {α : Type} (l : List α) (dflt : α) :
    (List.range l.length).map (fun i => l.getD i dflt) = l := by
  apply List.ext_getElem
  · simp
  · intro i h1 h2
    simp [List.getElem?_eq_getElem h2]

theorem indexOf_map_getD {dims : List String} (hnd : dims.Nodup) {i : Nat}
    (hi : i < dims.length) (p : List Nat) (hp : ∀ x ∈ p, x < dims.length) :
    (p.map fun x => dims.getD x "").indexOf (dims.getD i "") = p.indexOf i := by
  induction p with
  | nil => simp
  | cons a q ih =>
    have ha : a < dims.length := hp a (List.mem_cons_self a q)
    have hq : ∀ x ∈ q, x < dims.length := fun x hx => hp x (List.mem_cons_of_mem a hx)
    by_cases hai : a = i
    · subst hai
      simp
    · have hne : dims.getD a "" ≠ dims.getD i "" := by
        rw [List.getD_eq_getElem _ _ ha, List.getD_eq_getElem _ _ hi]
        intro hEq
        exact hai (hnd.getElem_inj_iff.mp hEq)
      rw [List.map_cons, List.indexOf_cons_ne _ hne, List.indexOf_cons_ne _ hai, ih hq]

theorem getD_map_perm {γ : Type} {dims : List String} (hnd : dims.Nodup)
    (g : List γ) (dflt : γ) {p : List Nat} (hp : List.Perm p (List.range dims.length))
    {l : String} (hl : l ∈ dims) :
    (p.map fun x => g.getD x dflt).getD
      ((p.map fun x => dims.getD x "").indexOf l) dflt =
      g.getD (dims.indexOf l) dflt := by
  have hi : dims.indexOf l < dims.length := List.indexOf_lt_length.mpr hl
  have hpx : ∀ x ∈ p, x < dims.length := fun x hx => by
    simpa using hp.mem_iff.mp hx
  have hip : dims.indexOf l ∈ p := hp.mem_iff.mpr (by simpa using hi)
  have hgl : dims.getD (dims.indexOf l) "" = l := by
    rw [List.getD_eq_getElem _ _ hi]
    exact List.getElem_indexOf hi
  rw [← hgl, indexOf_map_getD hnd hi p hpx]
  have hj : p.indexOf (dims.indexOf l) < p.length := List.indexOf_lt_length.mpr hip
  rw [List.getD_eq_getElem _ _ (by simpa using hj)]
  simp only [List.getElem_map]
  have heq : p[p.indexOf (dims.indexOf l)] = dims.indexOf l := List.getElem_indexOf hj
  rw [heq, hgl]

theorem lenAlong_applyPerm {d : dnpData} (hnd : d.dims.Nodup) {p : List Nat}
    (hp : List.Perm p (List.range d.dims.length)) {l : String} (hl : l ∈ d.dims) :
    (d.applyPerm p).lenAlong l = d.lenAlong l :=
  getD_map_perm hnd d.values.shape 0 hp hl

theorem coordsAlong_applyPerm {d : dnpData} (hnd : d.dims.Nodup) {p : List Nat}
    (hp : List.Perm p (List.range d.dims.length)) {l : String} (hl : l ∈ d.dims) :
    (d.applyPerm p).coordsAlong l = d.coordsAlong l :=
  getD_map_perm hnd d.coords [] hp hl

theorem sortPerm_perm (d : dnpData) : List.Perm d.sortPerm (List.range d.dims.length) :=
  List.mergeSort_perm _ _

theorem sort_dims_perm (d : dnpData) : List.Perm d.sort.dims d.dims := by
  have h := (sortPerm_perm d).map fun x => d.dims.getD x ""
  rw [map_getD_range] at h
  exact h

theorem charsLe_trans :
    ∀ (a b c : List Char), charsLe a b → charsLe b c → charsLe a c := by
  intro a
  induction a with
  | nil => intro b c _ _; exact rfl
  | cons x xs ih =>
    intro b c hab hbc
    cases b with
    | nil => simp [charsLe] at hab
    | cons y ys =>
      cases c with
      | nil => simp [charsLe] at hbc
      | cons z zs =>
        simp only [charsLe] at hab hbc ⊢
        rcases Nat.lt_trichotomy x.toNat y.toNat with h1 | h1 | h1
        · rcases Nat.lt_trichotomy y.toNat z.toNat with h2 | h2 | h2
          · rw [if_pos (by omega : x.toNat < z.toNat)]
          · rw [if_pos (by omega : x.toNat < z.toNat)]
          · rw [if_neg (by omega : ¬y.toNat < z.toNat),
              if_pos (by omega : z.toNat < y.toNat)] at hbc
            exact absurd hbc (by simp)
        · rcases Nat.lt_trichotomy y.toNat z.toNat with h2 | h2 | h2
          · rw [if_pos (by omega : x.toNat < z.toNat)]
          · rw [if_neg (by omega : ¬x.toNat < y.toNat),
              if_neg (by omega : ¬y.toNat < x.toNat)] at hab
            rw [if_neg (by omega : ¬y.toNat < z.toNat),
              if_neg (by omega : ¬z.toNat < y.toNat)] at hbc
            rw [if_neg (by omega : ¬x.toNat < z.toNat),
              if_neg (by omega : ¬z.toNat < x.toNat)]
            exact ih ys zs hab hbc
          · rw [if_neg (by omega : ¬y.toNat < z.toNat),
              if_pos (by omega : z.toNat < y.toNat)] at hbc
            exact absurd hbc (by simp)
        · rw [if_neg (by omega : ¬x.toNat < y.toNat),
            if_pos (by omega : y.toNat < x.toNat)] at hab
          exact absurd hab (by simp)

theorem charsLe_total : ∀ (a b : List Char), charsLe a b || charsLe b a := by
  intro a
  induction a with
  | nil => intro b; simp [charsLe]
  | cons x xs ih =>
    intro b
    cases b with
    | nil => simp [charsLe]
    | cons y ys =>
      simp only [charsLe]
      rcases Nat.lt_trichotomy x.toNat y.toNat with h1 | h1 | h1
      · rw [if_pos h1]
        simp
      · rw [if_neg (by omega : ¬x.toNat < y.toNat),
          if_neg (by omega : ¬y.toNat < x.toNat),
          if_neg (by omega : ¬y.toNat < x.toNat),
          if_neg (by omega : ¬x.toNat < y.toNat)]
        exact ih ys
      · rw [if_neg (by omega : ¬x.toNat < y.toNat),
          if_pos (by omega : y.toNat < x.toNat), if_pos h1]
        simp

theorem charsLe_antisymm :
    ∀ (a b : List Char), charsLe a b → charsLe b a → a = b := by
  intro a
  induction a with
  | nil =>
    intro b _ hba
    cases b with
    | nil => rfl
    | cons y ys => simp [charsLe] at hba
  | cons x xs ih =>
    intro b hab hba
    cases b with
    | nil => simp [charsLe] at hab
    | cons y ys =>
      simp only [charsLe] at hab hba
      rcases Nat.lt_trichotomy x.toNat y.toNat with h1 | h1 | h1
      · rw [if_neg (by omega : ¬y.toNat < x.toNat),
          if_pos (by omega : x.toNat < y.toNat)] at hba
        exact absurd hba (by simp)
      · rw [if_neg (by omega : ¬x.toNat < y.toNat),
          if_neg (by omega : ¬y.toNat < x.toNat)] at hab
        rw [if_neg (by omega : ¬y.toNat < x.toNat),
          if_neg (by omega : ¬x.toNat < y.toNat)] at hba
        have hxy : x = y := by
          rw [← Char.ofNat_toNat x, h1, Char.ofNat_toNat]
        rw [hxy, ih ys hab hba]
      · rw [if_neg (by omega : ¬x.toNat < y.toNat),
          if_pos (by omega : y.toNat < x.toNat)] at hab
        exact absurd hab (by simp)

theorem strLe_trans : ∀ (a b c : String), strLe a b → strLe b c → strLe a c :=
  fun a b c hab hbc => charsLe_trans a.data b.data c.data hab hbc

theorem strLe_total : ∀ (a b : String), strLe a b || strLe b a :=
  fun a b => charsLe_total a.data b.data

theorem strLe_antisymm : ∀ (a b : String), strLe a b → strLe b a → a = b :=
  fun a b hab hba => String.ext (charsLe_antisymm a.data b.data hab hba)

theorem mergeSort_strLe_congr {l1 l2 : List String} (h : List.Perm l1 l2) :
    l1.mergeSort strLe = l2.mergeSort strLe := by
  haveI : IsAntisymm String (fun a b => strLe a b = true) :=
    ⟨fun a b hab hba => strLe_antisymm a b hab hba⟩
  have s1 : (l1.mergeSort strLe).Pairwise (fun a b => strLe a b = true) :=
    List.sorted_mergeSort strLe_trans strLe_total l1
  have s2 : (l2.mergeSort strLe).Pairwise (fun a b => strLe a b = true) :=
    List.sorted_mergeSort strLe_trans strLe_total l2
  exact List.eq_of_perm_of_sorted
    ((List.mergeSort_perm l1 strLe).trans (h.trans (List.mergeSort_perm l2 strLe).symm))
    s1 s2

theorem sort_dims_sorted (d : dnpData) :
    d.sort.dims.Pairwise (fun a b => strLe a b = true) := by
  have htrans : ∀ (a b c : Nat),
      strLe (d.dims.getD a "") (d.dims.getD b "") = true →
      strLe (d.dims.getD b "") (d.dims.getD c "") = true →
      strLe (d.dims.getD a "") (d.dims.getD c "") = true := fun a b c hab hbc =>
    strLe_trans _ _ _ hab hbc
  have htotal : ∀ (a b : Nat),
      (strLe (d.dims.getD a "") (d.dims.getD b "") ||
        strLe (d.dims.getD b "") (d.dims.getD a "")) = true := fun a b =>
    strLe_total _ _
  have hs := List.sorted_mergeSort htrans htotal (List.range d.dims.length)
  have hmap : (((List.range d.dims.length).mergeSort fun a b =>
      strLe (d.dims.getD a "") (d.dims.getD b "")).map
        fun x => d.dims.getD x "").Pairwise (fun a b => strLe a b = true) :=
    List.Pairwise.map _ (fun a b hab => hab) hs
  exact hmap

theorem map_indexOf_self {dims : List String} (hnd : dims.Nodup) :
    (dims.map fun k => dims.indexOf k) = List.range dims.length := by
  apply List.ext_getElem
  · simp
  · intro i h1 h2
    simp only [List.getElem_map, List.getElem_range]
    exact List.indexOf_getElem hnd i (by simpa using h1)

theorem reorder_restore (d : dnpData) (hnd : d.dims.Nodup) (labels : List String)
    (hperm : List.Perm labels d.dims) :
    (d.reorder labels).dims = labels ∧
      ∀ l ∈ d.dims, (d.reorder labels).lenAlong l = d.lenAlong l ∧
        (d.reorder labels).coordsAlong l = d.coordsAlong l := by
  have hcond : labels.mergeSort strLe = d.dims.mergeSort strLe :=
    mergeSort_strLe_congr hperm
  have hq : List.Perm (labels.map fun k => d.dims.indexOf k)
      (List.range d.dims.length) := by
    have h1 := hperm.map fun k => d.dims.indexOf k
    rw [map_indexOf_self hnd] at h1
    exact h1
  unfold dnpData.reorder
  rw [if_pos hcond]
  refine ⟨?_, fun l hl =>
    ⟨lenAlong_applyPerm hnd hq hl, coordsAlong_applyPerm hnd hq hl⟩⟩
  show ((labels.map fun k => d.dims.indexOf k).map fun x => d.dims.getD x "") = labels
  rw [List.map_map]
  have hfix : ∀ k ∈ labels, d.dims.getD (d.dims.indexOf k) "" = k := by
    intro k hk
    have hkmem : k ∈ d.dims := hperm.mem_iff.mp hk
    have hik : d.dims.indexOf k < d.dims.length := List.indexOf_lt_length.mpr hkmem
    rw [List.getD_eq_getElem _ _ hik]
    exact List.getElem_indexOf hik
  exact (List.map_congr_left fun k hk => hfix k hk).trans (List.map_id labels)

theorem getD_set_self {α : Type} (l : List α) (i : Nat) (v dflt : α)
    (h : i < l.length) : (l.set i v).getD i dflt = v := by
  rw [List.getD_eq_getElem _ _ (by simpa using h)]
  exact List.getElem_set_self (by simpa using h)

theorem getD_set_ne {α : Type} (l : List α) (i j : Nat) (v dflt : α) (h : i ≠ j) :
    (l.set i v).getD j dflt = l.getD j dflt := by
  by_cases hj : j < l.length
  · rw [List.getD_eq_getElem _ _ (by simpa using hj), List.getD_eq_getElem _ _ hj]
    exact List.getElem_set_ne h _
  · rw [List.getD_eq_getElem?_getD, List.getD_eq_getElem?_getD,
      List.getElem?_set_ne h]

theorem lenAlong_sort {d : dnpData} (hnd : d.dims.Nodup) {l : String}
    (hl : l ∈ d.dims) : d.sort.lenAlong l = d.lenAlong l :=
  lenAlong_applyPerm hnd (sortPerm_perm d) hl

theorem coordsAlong_sort {d : dnpData} (hnd : d.dims.Nodup) {l : String}
    (hl : l ∈ d.dims) : d.sort.coordsAlong l = d.coordsAlong l :=
  coordsAlong_applyPerm hnd (sortPerm_perm d) hl

theorem sort_shape_length (d : dnpData) :
    d.sort.values.shape.length = d.dims.length := by
  simp [dnpData.sort, dnpData.applyPerm, NDArray.transpose, dnpData.sortPerm]

theorem sort_coords_length (d : dnpData) : d.sort.coords.length = d.dims.length := by
  simp [dnpData.sort, dnpData.applyPerm, dnpData.sortPerm]


/-- The intermediate state of `concatenateAlong` just after joining `values`
and the coordinate vector at the axis position, before the final `reorder`:
both operands sorted, `self`'s buffer and coordinate vector at `dim`'s sorted
position extended by `newData`'s. -/
def dnpData.concatMid (A B : dnpData) (l : String) : dnpData :=
  { A.sort with
    values := A.sort.values.concatPayload B.sort.values (A.sort.dims.indexOf l),
    coords := A.sort.coords.set (A.sort.dims.indexOf l)
      (A.sort.coords.getD (A.sort.dims.indexOf l) [] ++
        B.sort.coords.getD (A.sort.dims.indexOf l) []) }

theorem sort_dims_eq_of_perm {A B : dnpData} (hperm : List.Perm A.dims B.dims) :
    A.sort.dims = B.sort.dims := by
  haveI : IsAntisymm String (fun a b => strLe a b = true) :=
    ⟨fun a b hab hba => strLe_antisymm a b hab hba⟩
  exact List.eq_of_perm_of_sorted
    ((sort_dims_perm A).trans (hperm.trans (sort_dims_perm B).symm))
    (sort_dims_sorted A) (sort_dims_sorted B)

theorem concatAxis_sorted_ok {A B : dnpData} {l : String} (hA : A.dims.Nodup)
    (hperm : List.Perm A.dims B.dims) (hl : l ∈ A.dims)
    (hlen2 : ∀ l2 ∈ A.dims, l2 ≠ l → A.lenAlong l2 = B.lenAlong l2) :
    A.sort.values.concatAxis B.sort.values (A.sort.dims.indexOf l) =
      .ok (A.sort.values.concatPayload B.sort.values (A.sort.dims.indexOf l)) := by
  have hBnd : B.dims.Nodup := hperm.nodup_iff.mp hA
  have hsp : List.Perm A.sort.dims A.dims := sort_dims_perm A
  have hsnd : A.sort.dims.Nodup := hsp.nodup_iff.mpr hA
  have hdimseq : A.sort.dims = B.sort.dims := sort_dims_eq_of_perm hperm
  have hls : l ∈ A.sort.dims := hsp.mem_iff.mpr hl
  have hidxlt : A.sort.dims.indexOf l < A.sort.dims.length :=
    List.indexOf_lt_length.mpr hls
  have hshA : A.sort.values.shape.length = A.dims.length := sort_shape_length A
  have hshB : B.sort.values.shape.length = B.dims.length := sort_shape_length B
  have hsdlen : A.sort.dims.length = A.dims.length := hsp.length_eq
  have hcond : A.sort.dims.indexOf l < A.sort.values.shape.length ∧
      A.sort.values.shape.length = B.sort.values.shape.length ∧
      ∀ i < A.sort.values.shape.length, i ≠ A.sort.dims.indexOf l →
        A.sort.values.shape.getD i 0 = B.sort.values.shape.getD i 0 := by
    refine ⟨by omega, by rw [hshA, hshB, hperm.length_eq], ?_⟩
    intro i hi hne
    have hib : i < A.sort.dims.length := by omega
    have hl2 : A.sort.dims.getD i "" ∈ A.sort.dims := by
      rw [List.getD_eq_getElem _ _ hib]
      exact List.getElem_mem hib
    have hidx2 : A.sort.dims.indexOf (A.sort.dims.getD i "") = i := by
      rw [List.getD_eq_getElem _ _ hib]
      exact List.indexOf_getElem hsnd i hib
    have hl2A : A.sort.dims.getD i "" ∈ A.dims := hsp.mem_iff.mp hl2
    have hl2B : A.sort.dims.getD i "" ∈ B.dims := hperm.mem_iff.mp hl2A
    have hne2 : A.sort.dims.getD i "" ≠ l := fun hEq => hne (by rw [← hidx2, hEq])
    have e1 : A.sort.lenAlong (A.sort.dims.getD i "") =
        A.lenAlong (A.sort.dims.getD i "") := lenAlong_sort hA hl2A
    have e1b : A.sort.lenAlong (A.sort.dims.getD i "") =
        A.sort.values.shape.getD i 0 := by
      unfold dnpData.lenAlong
      rw [hidx2]
    have hidx2B : B.sort.dims.indexOf (A.sort.dims.getD i "") = i := by
      rw [← hdimseq]
      exact hidx2
    have e2 : B.sort.lenAlong (A.sort.dims.getD i "") =
        B.lenAlong (A.sort.dims.getD i "") := lenAlong_sort hBnd hl2B
    have e2b : B.sort.lenAlong (A.sort.dims.getD i "") =
        B.sort.values.shape.getD i 0 := by
      unfold dnpData.lenAlong
      rw [hidx2B]
    rw [← e1b, e1, hlen2 _ hl2A hne2, ← e2, e2b]
  unfold NDArray.concatAxis
  rw [if_pos hcond]

theorem concatenateAlong_eq_ok {A B : dnpData} {l : String} (hA : A.dims.Nodup)
    (hperm : List.Perm A.dims B.dims) (hl : l ∈ A.dims)
    (hlen2 : ∀ l2 ∈ A.dims, l2 ≠ l → A.lenAlong l2 = B.lenAlong l2) :
    A.concatenateAlong B l = .ok ((A.concatMid B l).reorder A.dims, B.sort) := by
  have hls : l ∈ A.sort.dims := (sort_dims_perm A).mem_iff.mpr hl
  simp only [dnpData.concatenateAlong, dnpData.concatMid]
  rw [if_pos (sort_dims_eq_of_perm hperm), if_pos hls,
    concatAxis_sorted_ok hA hperm hl hlen2]

theorem concatMid_lenAlong_self {A B : dnpData} {l : String} (hA : A.dims.Nodup)
    (hperm : List.Perm A.dims B.dims) (hl : l ∈ A.dims) :
    (A.concatMid B l).lenAlong l = A.lenAlong l + B.lenAlong l := by
  have hBnd : B.dims.Nodup := hperm.nodup_iff.mp hA
  have hls : l ∈ A.sort.dims := (sort_dims_perm A).mem_iff.mpr hl
  have hlB : l ∈ B.dims := hperm.mem_iff.mp hl
  have hidxlt : A.sort.dims.indexOf l < A.sort.dims.length :=
    List.indexOf_lt_length.mpr hls
  have e1 : A.sort.values.shape.getD (A.sort.dims.indexOf l) 0 = A.lenAlong l :=
    lenAlong_sort hA hl
  have e2 : B.sort.values.shape.getD (A.sort.dims.indexOf l) 0 = B.lenAlong l := by
    rw [sort_dims_eq_of_perm hperm]
    exact lenAlong_sort hBnd hlB
  show (A.sort.values.shape.set (A.sort.dims.indexOf l)
      (A.sort.values.shape.getD (A.sort.dims.indexOf l) 0 +
        B.sort.values.shape.getD (A.sort.dims.indexOf l) 0)).getD
      (A.sort.dims.indexOf l) 0 = A.lenAlong l + B.lenAlong l
  have hbound : A.sort.dims.indexOf l < A.sort.values.shape.length := by
    rw [sort_shape_length]
    exact lt_of_lt_of_le hidxlt (le_of_eq (sort_dims_perm A).length_eq)
  rw [getD_set_self _ _ _ _ hbound, e1, e2]

theorem concatMid_coordsAlong_self {A B : dnpData} {l : String} (hA : A.dims.Nodup)
    (hperm : List.Perm A.dims B.dims) (hl : l ∈ A.dims) :
    (A.concatMid B l).coordsAlong l = A.coordsAlong l ++ B.coordsAlong l := by
  have hBnd : B.dims.Nodup := hperm.nodup_iff.mp hA
  have hls : l ∈ A.sort.dims := (sort_dims_perm A).mem_iff.mpr hl
  have hlB : l ∈ B.dims := hperm.mem_iff.mp hl
  have hidxlt : A.sort.dims.indexOf l < A.sort.dims.length :=
    List.indexOf_lt_length.mpr hls
  have e1 : A.sort.coords.getD (A.sort.dims.indexOf l) [] = A.coordsAlong l :=
    coordsAlong_sort hA hl
  have e2 : B.sort.coords.getD (A.sort.dims.indexOf l) [] = B.coordsAlong l := by
    rw [sort_dims_eq_of_perm hperm]
    exact coordsAlong_sort hBnd hlB
  show (A.sort.coords.set (A.sort.dims.indexOf l)
      (A.sort.coords.getD (A.sort.dims.indexOf l) [] ++
        B.sort.coords.getD (A.sort.dims.indexOf l) [])).getD
      (A.sort.dims.indexOf l) [] = A.coordsAlong l ++ B.coordsAlong l
  have hbound : A.sort.dims.indexOf l < A.sort.coords.length := by
    rw [sort_coords_length]
    exact lt_of_lt_of_le hidxlt (le_of_eq (sort_dims_perm A).length_eq)
  rw [getD_set_self _ _ _ _ hbound, e1, e2]

theorem concatMid_lenAlong_other {A B : dnpData} {l l2 : String}
    (hA : A.dims.Nodup) (hl : l ∈ A.dims) (hl2 : l2 ∈ A.dims) (hne : l2 ≠ l) :
    (A.concatMid B l).lenAlong l2 = A.lenAlong l2 := by
  have hls : l ∈ A.sort.dims := (sort_dims_perm A).mem_iff.mpr hl
  have hl2s : l2 ∈ A.sort.dims := (sort_dims_perm A).mem_iff.mpr hl2
  have hneq : A.sort.dims.indexOf l ≠ A.sort.dims.indexOf l2 := fun hEq =>
    hne ((List.indexOf_inj hl2s hls).mp hEq.symm)
  show (A.sort.values.shape.set (A.sort.dims.indexOf l)
      (A.sort.values.shape.getD (A.sort.dims.indexOf l) 0 +
        B.sort.values.shape.getD (A.sort.dims.indexOf l) 0)).getD
      (A.sort.dims.indexOf l2) 0 = A.lenAlong l2
  rw [getD_set_ne _ _ _ _ _ hneq]
  exact lenAlong_sort hA hl2

/-- C3: `concatenateAlong` requires the two operands' canonically sorted dims
lists to be identical, failing with the dimension-mismatch `ValueError`
otherwise; for operands whose other dimension lengths match (the spec's
"whose other dims match" — otherwise `np.concatenate` itself raises), the
call succeeds and the result's `d`-length is the sum of the operands'
`d`-lengths, every other dimension length is unchanged, `B`'s coordinate
vector for `d` is appended to `A`'s, and `A`'s pre-sort dimension order is
restored on the result. -/
theorem C3_concatenate_spec :
    (∀ (A B : dnpData) (l : String), A.sort.dims ≠ B.sort.dims →
      A.concatenateAlong B l = .error (PyErr.valueError "dims do not match")) ∧
    (∀ (A B : dnpData) (l : String), A.dims.Nodup → List.Perm A.dims B.dims →
      l ∈ A.dims →
      (∀ l2 ∈ A.dims, l2 ≠ l → A.lenAlong l2 = B.lenAlong l2) →
      ∃ R Bp, A.concatenateAlong B l = .ok (R, Bp) ∧ R.dims = A.dims ∧
        R.lenAlong l = A.lenAlong l + B.lenAlong l ∧
        R.coordsAlong l = A.coordsAlong l ++ B.coordsAlong l ∧
        ∀ l2 ∈ A.dims, l2 ≠ l → R.lenAlong l2 = A.lenAlong l2) := by
  constructor
  · intro A B l h
    simp only [dnpData.concatenateAlong]
    rw [if_neg h]
  · intro A B l hA hperm hl hlen2
    have hsp := sort_dims_perm A
    have hsnd : A.sort.dims.Nodup := hsp.nodup_iff.mpr hA
    have hls : l ∈ A.sort.dims := hsp.mem_iff.mpr hl
    have hRR := reorder_restore (A.concatMid B l) hsnd A.dims hsp.symm
    refine ⟨(A.concatMid B l).reorder A.dims, B.sort,
      concatenateAlong_eq_ok hA hperm hl hlen2, hRR.1, ?_, ?_, ?_⟩
    · rw [(hRR.2 l hls).1]
      exact concatMid_lenAlong_self hA hperm hl
    · rw [(hRR.2 l hls).2]
      exact concatMid_coordsAlong_self hA hperm hl
    · intro l2 hl2 hne
      have hl2s : l2 ∈ A.sort.dims := hsp.mem_iff.mpr hl2
      rw [(hRR.2 l2 hl2s).1]
      exact concatMid_lenAlong_other hA hl hl2 hne

/-- First operand of the concrete concatenation scenario: shape (3,2),
`dims=['x','y']`. -/
def exCA : dnpData :=
  dnpData.init (NDArray.ofList2 [[1, 2], [3, 4], [5, 6]]) [[0, 1, 2], [10, 20]]
    ["x", "y"] []

/-- Second operand of the concrete concatenation scenario: shape (2,2),
`dims=['x','y']`. -/
def exCB : dnpData :=
  dnpData.init (NDArray.ofList2 [[7, 8], [9, 10]]) [[3, 4], [10, 20]] ["x", "y"] []

/-- Witness for C3: the success branch applies to two concrete arrays. -/
theorem C3_concatenate_spec_witness :
    ∃ R Bp, exCA.concatenateAlong exCB "x" = .ok (R, Bp) ∧ R.dims = exCA.dims ∧
      R.lenAlong "x" = exCA.lenAlong "x" + exCB.lenAlong "x" ∧
      R.coordsAlong "x" = exCA.coordsAlong "x" ++ exCB.coordsAlong "x" ∧
      ∀ l2 ∈ exCA.dims, l2 ≠ "x" → R.lenAlong l2 = exCA.lenAlong l2 :=
  C3_concatenate_spec.2 exCA exCB "x" (by decide) (by decide) (by decide) (by decide)

/-- A labeled array whose dims are not in lexicographic order: shape (2,3),
`dims=['y','x']`. -/
def exC10B : dnpData :=
  dnpData.init (NDArray.ofList2 [[1, 2, 3], [4, 5, 6]]) [[10, 20], [0, 1, 2]]
    ["y", "x"] []

unseal List.merge List.mergeSort in
/-- C10: a successful `concatenateAlong` leaves its second operand sorted in
place and never restored: the returned second operand is exactly `B.sort`,
whose dims are in lexicographic order (a permutation of `B`'s, sorted by
`≤`); concretely, for `B` with `dims=['y','x']` the post-state has
`dims=['x','y']` — a genuine reordering. -/
theorem C10_concatenate_mutates_other :
    (∀ (A B : dnpData) (l : String) (R Bp : dnpData),
      A.concatenateAlong B l = .ok (R, Bp) → Bp = B.sort) ∧
    (∀ B : dnpData, B.sort.dims.Pairwise (fun a b => strLe a b = true) ∧
      List.Perm B.sort.dims B.dims) ∧
    exC10B.sort.dims = ["x", "y"] ∧ exC10B.dims = ["y", "x"] ∧
    exC10B.sort.coords = [[0, 1, 2], [10, 20]] ∧
    exC10B.sort.values.toFlat = [1, 4, 2, 5, 3, 6] := by
  refine ⟨?_, fun B => ⟨sort_dims_sorted B, sort_dims_perm B⟩, by decide, by decide,
    by decide, by decide⟩
  intro A B l R Bp h
  simp only [dnpData.concatenateAlong] at h
  by_cases h1 : A.sort.dims = B.sort.dims
  · rw [if_pos h1] at h
    by_cases h2 : l ∈ A.sort.dims
    · rw [if_pos h2] at h
      cases hv : A.sort.values.concatAxis B.sort.values (A.sort.dims.indexOf l) with
      | ok v =>
        rw [hv] at h
        simp only [] at h
        rw [Except.ok.injEq, Prod.mk.injEq] at h
        exact h.2.symm
      | error e =>
        rw [hv] at h
        simp only [] at h
        exact absurd h (by simp)
    · rw [if_neg h2] at h
      exact absurd h (by simp)
  · rw [if_neg h1] at h
    exact absurd h (by simp)

/-- Witness for C10: the implication's hypothesis is discharged at the
concrete concatenation of the two example arrays. -/
theorem C10_concatenate_mutates_other_witness : ∃ Bp : dnpData, Bp = exCB.sort :=
  ⟨_, C10_concatenate_mutates_other.1 exCA exCB "x" _ _
    (concatenateAlong_eq_ok (by decide) (by decide) (by decide) (by decide))⟩

/-! ### Reduction (`dnpData.sum`) -/

/-- Embedding of `np.sum(values, axis=k)`. -/
def NDArray.sumAxis (A : NDArray) (k : Nat) : NDArray :=
  ⟨A.shape.eraseIdx k,
    fun idx => ((List.range (A.shape.getD k 0)).map fun j =>
      A.data (idx.insertIdx k j)).sum⟩

/-- Embedding of the in-place `dnpData.sum(axesLabel)` method: looks up the
axis with `list.index` (which raises `ValueError`, not `KeyError`, when the
label is absent), sums `values` along it and pops the label and coordinate
vector. -/
def dnpData.sumDim (d : dnpData) (l : String) : Except PyErr dnpData :=
  if l ∈ d.dims then
    .ok { d with
      values := d.values.sumAxis (d.dims.indexOf l),
      dims := d.dims.eraseIdx (d.dims.indexOf l),
      coords := d.coords.eraseIdx (d.dims.indexOf l) }
  else .error (.valueError (l ++ " is not in list"))

theorem shapeMatch_eraseIdx {c : List (List ℤ)} {s : List Nat}
    (h : shapeMatch c s = true) (i : Nat) :
    shapeMatch (c.eraseIdx i) (s.eraseIdx i) = true := by
  induction c generalizing s i with
  | nil =>
    cases s with
    | nil => simpa [List.eraseIdx] using h
    | cons s0 ss => simp [shapeMatch] at h
  | cons cv cs ih =>
    cases s with
    | nil => simp [shapeMatch] at h
    | cons s0 ss =>
      simp only [shapeMatch, Bool.and_eq_true, beq_iff_eq] at h
      cases i with
      | zero => simpa [List.eraseIdx] using h.2
      | succ n =>
        simp only [List.eraseIdx, shapeMatch, Bool.and_eq_true, beq_iff_eq]
        exact ⟨h.1, ih h.2 n⟩

theorem consistentB_sumDim {d : dnpData} {l : String} (hc : d.consistentB = true)
    (hl : l ∈ d.dims) :
    ∃ r, d.sumDim l = .ok r ∧ r.dims = d.dims.eraseIdx (d.dims.indexOf l) ∧
      r.coords = d.coords.eraseIdx (d.dims.indexOf l) ∧ r.consistentB = true := by
  unfold dnpData.consistentB at hc
  rw [Bool.and_eq_true, beq_iff_eq] at hc
  refine ⟨_, by rw [dnpData.sumDim, if_pos hl], rfl, rfl, ?_⟩
  unfold dnpData.consistentB NDArray.sumAxis
  rw [Bool.and_eq_true, beq_iff_eq]
  constructor
  · have h1 := hc.1
    have hi : d.dims.indexOf l < d.dims.length := List.indexOf_lt_length.mpr hl
    simp only [List.length_eraseIdx]
    rw [if_pos hi, if_pos (h1 ▸ hi), h1]
  · exact shapeMatch_eraseIdx hc.2 _

/-- The (3,2) example array of the spec's reduction scenario. -/
def exS : dnpData :=
  dnpData.init (NDArray.ofList2 [[1, 2], [3, 4], [5, 6]]) [[0, 1, 2], [10, 20]]
    ["x", "y"] []

/-- C4 counterexample: summing over an absent dimension fails with
`ValueError` (from `list.index`), which is a different exception kind than
the `KeyError` the claim names. -/
theorem C4_sum_absent_valueerror_not_keyerror :
    dnpData.sumDim exS "z" = .error (PyErr.valueError "z is not in list") ∧
      PyErr.valueError "z is not in list" ≠ PyErr.keyError "z" := by
  constructor
  · rfl
  · decide

/-- C4 (amended): `sum` removes the named dimension from `dims` and `coords`
and sums `values` along that axis — on the spec's (3,2) example summing over
`'x'` yields `dims=['y']`, `coords=[[10,20]]`, shape `(2,)` column sums — and
for an absent dimension name it fails with `ValueError` (not `KeyError`). -/
theorem C4_sum_spec :
    ((dnpData.sumDim exS "x").map
      (fun r => (r.dims, r.coords, r.values.shape, r.values.toFlat)) =
      .ok (["y"], [[10, 20]], [2], [9, 12])) ∧
    (∀ (d : dnpData) (l : String), l ∉ d.dims →
      d.sumDim l = .error (.valueError (l ++ " is not in list"))) ∧
    (∀ (d : dnpData) (l : String), d.consistentB = true → l ∈ d.dims →
      ∃ r, d.sumDim l = .ok r ∧ r.dims = d.dims.eraseIdx (d.dims.indexOf l) ∧
        r.coords = d.coords.eraseIdx (d.dims.indexOf l) ∧ r.consistentB = true) := by
  refine ⟨by rfl, fun d l hl => ?_, fun d l hc hl => consistentB_sumDim hc hl⟩
  rw [dnpData.sumDim, if_neg hl]

/-- Witness for C4: both hypothesis-bearing branches fire on the concrete
example array. -/
theorem C4_sum_spec_witness :
    dnpData.sumDim exS "q" = .error (.valueError "q is not in list") ∧
      ∃ r, dnpData.sumDim exS "x" = .ok r ∧
        r.dims = exS.dims.eraseIdx (exS.dims.indexOf "x") ∧
        r.coords = exS.coords.eraseIdx (exS.dims.indexOf "x") ∧
        r.consistentB = true :=
  ⟨C4_sum_spec.2.1 exS "q" (by decide), C4_sum_spec.2.2 exS "x" (by decide) (by decide)⟩

/-! ### Binary arithmetic (`__add__`, `__sub__`, `__mul__`, `__pow__`,
`__rsub__`) -/

/-- The operand taxonomy of the Python operators' `isinstance` dispatch:
a non-bool scalar, a raw numpy buffer, another labeled array, or anything
else. -/
inductive Operand where
  | scalar (c : ℤ)
  | arr (a : NDArray)
  | nd (b : dnpData)
  | other (t : String)

/-- Elementwise unary transform of a buffer. -/
def NDArray.mapVals (A : NDArray) (f : ℤ → ℤ) : NDArray :=
  ⟨A.shape, fun idx => f (A.data idx)⟩

/-- Elementwise binary combination of two buffers (numpy broadcasting,
modelled on its same-shape case; the claims quantify over matching shapes). -/
def NDArray.zipVals (A B : NDArray) (f : ℤ → ℤ → ℤ) : NDArray :=
  ⟨A.shape, fun idx => f (A.data idx) (B.data idx)⟩

/-- Embedding of `dnpData.__add__`: deep-copies the receiver, adds a scalar,
buffer, or other labeled array's buffer into the copy's `values`; for any
other operand type it prints a diagnostic and returns `None` (modelled as
`Option.none`), leaving the receiver untouched. -/
def dnpData.add (d : dnpData) : Operand → Except PyErr (Option dnpData)
  | .scalar c => .ok (some { d with values := d.values.mapVals (· + c) })
  | .arr a => .ok (some { d with values := d.values.zipVals a (· + ·) })
  | .nd b => .ok (some { d with values := d.values.zipVals b.values (· + ·) })
  | .other _ => .ok none

/-- Embedding of `dnpData.__sub__` (same dispatch as `__add__`). -/
def dnpData.sub (d : dnpData) : Operand → Except PyErr (Option dnpData)
  | .scalar c => .ok (some { d with values := d.values.mapVals (· - c) })
  | .arr a => .ok (some { d with values := d.values.zipVals a (· - ·) })
  | .nd b => .ok (some { d with values := d.values.zipVals b.values (· - ·) })
  | .other _ => .ok none

/-- Embedding of `dnpData.__mul__` (same dispatch as `__add__`). -/
def dnpData.mul (d : dnpData) : Operand → Except PyErr (Option dnpData)
  | .scalar c => .ok (some { d with values := d.values.mapVals (· * c) })
  | .arr a => .ok (some { d with values := d.values.zipVals a (· * ·) })
  | .nd b => .ok (some { d with values := d.values.zipVals b.values (· * ·) })
  | .other _ => .ok none

/-- Embedding of `dnpData.__pow__` (same dispatch as `__add__`; exponents are
modelled as nonnegative — numpy raises on a negative integer exponent of an
integer buffer, and the claims exercise only the dispatch). -/
def dnpData.pow (d : dnpData) : Operand → Except PyErr (Option dnpData)
  | .scalar c => .ok (some { d with values := d.values.mapVals (· ^ c.toNat) })
  | .arr a => .ok (some { d with values := d.values.zipVals a (fun x y => x ^ y.toNat) })
  | .nd b =>
    .ok (some { d with values := d.values.zipVals b.values (fun x y => x ^ y.toNat) })
  | .other _ => .ok none

/-- Embedding of `dnpData.__rsub__`: computes `operand - self`, but its scalar
branch reads `newData.data` — an attribute `dnpData` objects do not have
(every other branch uses `.values`) — so a scalar left operand raises
`AttributeError` instead of producing a result. -/
def dnpData.rsub (d : dnpData) : Operand → Except PyErr (Option dnpData)
  | .scalar _ => .error (.attributeError "dnpData object has no attribute data")
  | .arr a => .ok (some { d with values := NDArray.zipVals a d.values (· - ·) })
  | .nd b => .ok (some { d with values := NDArray.zipVals b.values d.values (· - ·) })
  | .other _ => .ok none

/-- Embedding of `dnpData.__radd__` (defers to `__add__`). -/
def dnpData.radd (d : dnpData) (x : Operand) : Except PyErr (Option dnpData) :=
  d.add x

/-- Embedding of `dnpData.__rmul__` (defers to `__mul__`). -/
def dnpData.rmul (d : dnpData) (x : Operand) : Except PyErr (Option dnpData) :=
  d.mul x

/-- C8: for every receiver and every operand that is neither a scalar, a raw
buffer, nor a labeled array, each of `+`, `-`, `*`, `**` does not raise: it
returns the `None` soft-failure marker (the Python methods print a diagnostic
and return with no result; the receiver, deep-copied before dispatch, is
never modified). -/
theorem C8_arithmetic_soft_failure :
    ∀ (d : dnpData) (t : String),
      d.add (Operand.other t) = .ok none ∧ d.sub (Operand.other t) = .ok none ∧
      d.mul (Operand.other t) = .ok none ∧ d.pow (Operand.other t) = .ok none :=
  fun _ _ => ⟨rfl, rfl, rfl, rfl⟩

/-- C7: reflected subtraction with a raw buffer of matching shape does compute
`operand - self`, elementwise the negation of `self - operand`; but with a
scalar operand the claim fails — the scalar branch of `__rsub__` dereferences
the nonexistent `data` attribute and raises `AttributeError` (evaluated here
on the concrete example array with `s = 5`). -/
theorem C7_rsub_spec :
    (dnpData.rsub exS (Operand.scalar 5) =
      .error (PyErr.attributeError "dnpData object has no attribute data")) ∧
    (∀ (d : dnpData) (a : NDArray), a.shape = d.values.shape →
      ∃ r q, d.rsub (Operand.arr a) = .ok (some r) ∧
        d.sub (Operand.arr a) = .ok (some q) ∧
        r.values.shape = q.values.shape ∧
        ∀ idx : List Nat, r.values.data idx = -(q.values.data idx)) := by
  refine ⟨rfl, fun d a hsh => ⟨_, _, rfl, rfl, hsh, fun idx => ?_⟩⟩
  show a.data idx - d.values.data idx = -(d.values.data idx - a.data idx)
  ring

/-- Witness for C7: the buffer branch applies at the example array against an
equal-shaped buffer. -/
theorem C7_rsub_spec_witness :
    ∃ r q, dnpData.rsub exS (Operand.arr (NDArray.ofList2 [[1, 1], [2, 2], [3, 3]])) =
        .ok (some r) ∧
      dnpData.sub exS (Operand.arr (NDArray.ofList2 [[1, 1], [2, 2], [3, 3]])) =
        .ok (some q) ∧
      r.values.shape = q.values.shape ∧
      ∀ idx : List Nat, r.values.data idx = -(q.values.data idx) :=
  C7_rsub_spec.2 exS (NDArray.ofList2 [[1, 1], [2, 2], [3, 3]]) (by rfl)

/-! ### Collection/Workspace (`dnpdata_collection`, `create_workspace`) -/

/-- A value storable in the workspace dictionary: a labeled array or a nested
plain dictionary (modelled as an association list of numeric parameters). -/
inductive WsVal where
  | nd (d : dnpData)
  | dict (entries : List (String × ℤ))

/-- State of a `dnpdata_collection`: the processing-buffer name and the
internal keyed dictionary (insertion-ordered association list). -/
structure dnpdata_collection where
  processing_buffer : String
  data_dict : List (String × WsVal)

/-- Argument forms of `dnpdata_collection.__init__(*args)`: no argument, a
single labeled array, a single dict of typed values, a single argument of any
other type, a `(str, value)` pair, an ill-typed pair, or three or more
arguments. -/
inductive WsArgs where
  | noArgs
  | oneData (d : dnpData)
  | oneDict (entries : List (String × WsVal))
  | oneOther (t : String)
  | twoArgs (k : String) (v : WsVal)
  | twoBad (t : String)
  | moreArgs

/-- Embedding of `dnpdata_collection.__init__`.  The single-labeled-array
branch executes `self.__data_dict['raw'] == dnpData` — an equality comparison
(not an assignment) whose left side subscripts the just-created empty
dictionary, so it always raises `KeyError('raw')`.  The dict branch copies
each (typed) entry; the two-argument branch stores the pair; other shapes
raise `TypeError`. -/
def dnpdata_collection.init : WsArgs → Except PyErr dnpdata_collection
  | .noArgs => .ok ⟨"proc", []⟩
  | .oneData _ => .error (.keyError "raw")
  | .oneDict entries => .ok ⟨"proc", entries⟩
  | .oneOther _ => .error (.typeError "Argument must be type dnpData")
  | .twoArgs k v => .ok ⟨"proc", [(k, v)]⟩
  | .twoBad _ => .error (.typeError
      "If two arguments, first argument must be str and 2nd argument must be dnpData or dict")
  | .moreArgs => .error (.typeError "Arguments not understood")

/-- Embedding of `create_workspace(*args)`: forwards its arguments to the
`dnpdata_collection` constructor. -/
def create_workspace (args : WsArgs) : Except PyErr dnpdata_collection :=
  dnpdata_collection.init args

/-- C9: the one-argument labeled-array constructor form never stores anything
under `'raw'`: it always raises `KeyError` (the intended assignment is written
as `==` against the empty internal dictionary), through `create_workspace`
too; only the zero-argument, dict, and `(key, value)` forms construct a
workspace without failing. -/
theorem C9_collection_single_data_keyerror :
    (∀ d : dnpData, dnpdata_collection.init (WsArgs.oneData d) =
      .error (PyErr.keyError "raw")) ∧
    (∀ d : dnpData, create_workspace (WsArgs.oneData d) =
      .error (PyErr.keyError "raw")) ∧
    dnpdata_collection.init WsArgs.noArgs = .ok ⟨"proc", []⟩ ∧
    (∀ entries, dnpdata_collection.init (WsArgs.oneDict entries) =
      .ok ⟨"proc", entries⟩) ∧
    (∀ k v, dnpdata_collection.init (WsArgs.twoArgs k v) = .ok ⟨"proc", [(k, v)]⟩) :=
  ⟨fun _ => rfl, fun _ => rfl, rfl, fun _ => rfl, fun _ _ => rfl⟩

/-! ### Axis (`nddata_axis`) — numeric values modelled over `ℚ` (floats as
exact rationals; `np.allclose` becomes exact comparison, which only widens
the set of inputs the reduction accepts by the float tolerance) -/

/-- Sample count of `np.arange(start, stop, step)`:
`max 0 ⌈(stop-start)/step⌉` (zero-step handled as empty; numpy raises there
and no theorem uses it). -/
def arangeCount (start stop step : ℚ) : Nat :=
  if step = 0 then 0 else (⌈(stop - start) / step⌉).toNat

/-- `np.arange(start, stop, step)` / `np.r_[slice(start, stop, step)]`. -/
def arangeQ (start stop step : ℚ) : List ℚ :=
  (List.range (arangeCount start stop step)).map fun k : ℕ => start + (k : ℚ) * step

/-- State of an `nddata_axis` object.  Python attributes can be *absent*
(never assigned) as well as hold `None`, and several methods branch on
`hasattr`; an outer `Option` layer models attribute presence, an inner one a
stored Python `None`.  `axisAttr` is the `_axis` slot the ndarray constructor
branch writes, `arrayAttr` the `_array` cache every reader uses. -/
structure nddata_axis where
  dim : String
  startAttr : Option (Option ℚ)
  stopAttr : Option (Option ℚ)
  stepAttr : Option (Option ℚ)
  axisAttr : Option (List ℚ)
  arrayAttr : Option (List ℚ)
  typeAttr : Option String
  deriving DecidableEq, Repr

/-- Argument forms of `nddata_axis.__init__(dim, *args)`. -/
inductive AxisArgs where
  | noArgs
  | ofArray (l : List ℚ)
  | ofSlice (a b c : Option ℚ)
  | ofNum (x : ℚ)
  | ofOther (t : String)
  | twoNums (a b : ℚ)
  | threeNums (a b c : ℚ)

/-- Embedding of `nddata_axis.reduce()`: requires the `_array` attribute (else
`ValueError('No array to reduce')`), reads `arr[0]`, `arr[1]`, `arr[-1]`
(an `IndexError` when fewer than two samples), reconstructs the progression
with `stop = arr[-1] + step`, and on an exact (tolerance-free in this model)
match stores the reduced triple through the numeric setters; a non-uniform
array raises `ValueError`. -/
def nddata_axis.reduce (ax : nddata_axis) : Except PyErr nddata_axis :=
  match ax.arrayAttr with
  | none => .error (.valueError "No array to reduce")
  | some arr =>
    if arr.length < 2 then .error (.indexError "index out of range")
    else if arr = arangeQ (arr.getD 0 0)
        (arr.getLast?.getD 0 + (arr.getD 1 0 - arr.getD 0 0))
        (arr.getD 1 0 - arr.getD 0 0) then
      .ok { ax with
        startAttr := some (some (arr.getD 0 0)),
        stopAttr := some (some (arr.getLast?.getD 0 + (arr.getD 1 0 - arr.getD 0 0))),
        stepAttr := some (some (arr.getD 1 0 - arr.getD 0 0)) }
    else .error (.valueError "Array must have evenly spaced values to be reduced")

/-- Embedding of `nddata_axis.__init__`.  In the ndarray branch the sequence
is stored in `self._axis` (not `self._array`); the immediate `self.reduce()`
then finds no `_array`, its `ValueError` is swallowed, and `_type` is set —
so `__start`/`__stop`/`__step` stay absent.  A single non-numeric,
non-array, non-slice argument raises `ValueError`. -/
def nddata_axis.init (dim : String) : AxisArgs → Except PyErr nddata_axis
  | .noArgs => .ok ⟨dim, some none, some none, some none, none, none, none⟩
  | .ofArray l => .ok ⟨dim, none, none, none, some l, none, some "ndarray"⟩
  | .ofSlice a b c => .ok ⟨dim, some a, some b, some c, none, none, none⟩
  | .ofNum x => .ok ⟨dim, some none, some (some x), some none, none, none, none⟩
  | .ofOther _ => .error (.valueError "coord not understood")
  | .twoNums a b => .ok ⟨dim, some (some a), some (some b), some none, none, none, none⟩
  | .threeNums a b c =>
    .ok ⟨dim, some (some a), some (some b), some (some c), none, none, none⟩

/-- Embedding of the `array` property getter (materialisation): returns the
`_array` cache when present; otherwise evaluates `self.start` (an
`AttributeError` when `__start` was never assigned, as after the ndarray
constructor branch), materialises `np.r_[slice(start, stop, step)]` with
Python-`None` start/step defaulting to 0/1, and caches it.  A Python-`None`
stop makes `np.arange` raise a `TypeError`. -/
def nddata_axis.arrayProp (ax : nddata_axis) :
    Except PyErr (List ℚ × nddata_axis) :=
  match ax.arrayAttr with
  | some arr => .ok (arr, ax)
  | none =>
    match ax.startAttr, ax.stopAttr, ax.stepAttr with
    | some a, some b, some c =>
      match b with
      | some stop =>
        let arr := arangeQ (a.getD 0) stop (c.getD 1)
        .ok (arr, { ax with arrayAttr := some arr })
      | none => .error (.typeError "unsupported operand type for arange")
    | _, _, _ =>
      .error (.attributeError "nddata_axis object has no attribute start")

/-- Embedding of `nddata_axis.__len__` (`len(self.array)`). -/
def nddata_axis.lenAxis (ax : nddata_axis) : Except PyErr Nat := do
  let p ← ax.arrayProp
  pure p.1.length

/-- Embedding of `nddata_axis.__getitem__` with an integer index
(`self.array[x]`, Python negative-index semantics). -/
def nddata_axis.getItemI (ax : nddata_axis) (i : ℤ) : Except PyErr ℚ := do
  let p ← ax.arrayProp
  let n := p.1.length
  let j := if i < 0 then (n : ℤ) + i else i
  if 0 ≤ j ∧ j < (n : ℤ) then pure (p.1.getD j.toNat 0)
  else .error (.indexError "index out of range")

/-- Embedding of the `array` property setter (`axis.array = b`): stores the
given sequence in `_array`. -/
def nddata_axis.setArray (ax : nddata_axis) (l : List ℚ) : nddata_axis :=
  { ax with arrayAttr := some l }

/-- C5: the claim fails on the code — an axis constructed from a materialized
sequence stores it in `_axis` while every reader (`array`, `len`,
`__getitem__`, `reduce`) uses `_array`, so construction succeeds but
materialisation, length and indexing all raise `AttributeError` (the `__start`
attribute was never assigned) instead of returning the samples. -/
theorem C5_axis_from_sequence_broken :
    nddata_axis.init "x" (AxisArgs.ofArray [1, 2, 3]) =
      .ok ⟨"x", none, none, none, some [1, 2, 3], none, some "ndarray"⟩ ∧
    nddata_axis.lenAxis ⟨"x", none, none, none, some [1, 2, 3], none, some "ndarray"⟩ =
      .error (.attributeError "nddata_axis object has no attribute start") ∧
    nddata_axis.getItemI ⟨"x", none, none, none, some [1, 2, 3], none, some "ndarray"⟩ 0 =
      .error (.attributeError "nddata_axis object has no attribute start") ∧
    nddata_axis.arrayProp ⟨"x", none, none, none, some [1, 2, 3], none, some "ndarray"⟩ =
      .error (.attributeError "nddata_axis object has no attribute start") :=
  ⟨rfl, rfl, rfl, rfl⟩

theorem length_arangeQ (s t p : ℚ) : (arangeQ s t p).length = arangeCount s t p := by
  unfold arangeQ
  rw [List.length_map, List.length_range]

theorem getD_arangeQ (s t p : ℚ) (k : Nat) (h : k < arangeCount s t p) :
    (arangeQ s t p).getD k 0 = s + k * p := by
  have hb : k < (arangeQ s t p).length := by
    rw [length_arangeQ]
    exact h
  rw [List.getD_eq_getElem _ _ hb]
  unfold arangeQ at hb ⊢
  rw [List.getElem_map]
  congr 1
  congr 1
  exact congrArg Nat.cast (List.getElem_range _ _)

theorem arangeQ_getD_zero {s t p : ℚ} (h : 1 ≤ arangeCount s t p) :
    (arangeQ s t p).getD 0 0 = s := by
  rw [getD_arangeQ s t p 0 (by omega)]
  push_cast
  ring

theorem arangeQ_getD_one {s t p : ℚ} (h : 2 ≤ arangeCount s t p) :
    (arangeQ s t p).getD 1 0 = s + p := by
  rw [getD_arangeQ s t p 1 (by omega)]
  push_cast
  ring

theorem arangeQ_getLast {s t p : ℚ} (h : 1 ≤ arangeCount s t p) :
    (arangeQ s t p).getLast?.getD 0 = s + ((arangeCount s t p : ℚ) - 1) * p := by
  have hb : arangeCount s t p - 1 < (arangeQ s t p).length := by
    rw [length_arangeQ]
    omega
  rw [List.getLast?_eq_getElem?, length_arangeQ, List.getElem?_eq_getElem hb,
    Option.getD_some, ← List.getD_eq_getElem _ 0 hb,
    getD_arangeQ s t p _ (by omega)]
  congr 1
  congr 1
  rw [Nat.cast_sub (by omega)]
  simp

theorem arangeCount_add_mul (s p : ℚ) (hp : p ≠ 0) (n : ℕ) :
    arangeCount s (s + n * p) p = n := by
  unfold arangeCount
  rw [if_neg hp]
  have h1 : (s + (n : ℚ) * p - s) / p = (n : ℚ) := by
    rw [add_sub_cancel_left]
    exact mul_div_cancel_right₀ _ hp
  rw [h1, Int.ceil_natCast]
  exact Int.toNat_ofNat n

theorem arangeQ_add_mul (s t p : ℚ) (hp : p ≠ 0) :
    arangeQ s (s + (arangeCount s t p : ℚ) * p) p = arangeQ s t p := by
  unfold arangeQ
  rw [arangeCount_add_mul s p hp]

theorem reduce_arange {ax : nddata_axis} {s t p : ℚ} (hp : p ≠ 0)
    (hn : 2 ≤ arangeCount s t p) (harr : ax.arrayAttr = some (arangeQ s t p)) :
    ax.reduce = .ok { ax with
      startAttr := some (some s),
      stopAttr := some (some (s + (arangeCount s t p : ℚ) * p)),
      stepAttr := some (some p) } := by
  have h0 : (arangeQ s t p).getD 0 0 = s := arangeQ_getD_zero (by omega)
  have h1 : (arangeQ s t p).getD 1 0 = s + p := arangeQ_getD_one hn
  have hstep : (arangeQ s t p).getD 1 0 - (arangeQ s t p).getD 0 0 = p := by
    rw [h0, h1]
    ring
  have hstop : (arangeQ s t p).getLast?.getD 0 +
      ((arangeQ s t p).getD 1 0 - (arangeQ s t p).getD 0 0) =
      s + (arangeCount s t p : ℚ) * p := by
    rw [hstep, arangeQ_getLast (by omega)]
    ring
  have hcond : arangeQ s t p = arangeQ ((arangeQ s t p).getD 0 0)
      ((arangeQ s t p).getLast?.getD 0 +
        ((arangeQ s t p).getD 1 0 - (arangeQ s t p).getD 0 0))
      ((arangeQ s t p).getD 1 0 - (arangeQ s t p).getD 0 0) := by
    rw [hstop, hstep, h0]
    exact (arangeQ_add_mul s t p hp).symm
  unfold nddata_axis.reduce
  rw [harr]
  simp only []
  rw [if_neg (by rw [length_arangeQ]; omega)]
  rw [if_pos hcond, hstop, hstep, h0]

/-- The claim's round trip: construct an axis from a `(start, stop, step)`
triple, materialise the sequence (the `array` property), then `reduce()`. -/
def axisRoundTrip (s t p : ℚ) : Except PyErr nddata_axis := do
  let ax ← nddata_axis.init "x" (AxisArgs.threeNums s t p)
  let pr ← ax.arrayProp
  pr.2.reduce

theorem reduce_not_arange {ax : nddata_axis} {arr : List ℚ}
    (harr : ax.arrayAttr = some arr) (hlen : 2 ≤ arr.length)
    (hne : arr ≠ arangeQ (arr.getD 0 0)
      (arr.getLast?.getD 0 + (arr.getD 1 0 - arr.getD 0 0))
      (arr.getD 1 0 - arr.getD 0 0)) :
    ax.reduce = .error (.valueError "Array must have evenly spaced values to be reduced") := by
  unfold nddata_axis.reduce
  rw [harr]
  simp only []
  rw [if_neg (by omega), if_neg hne]

theorem arangeCount_int (s t p : ℚ) (hp : p ≠ 0) (z : ℤ)
    (h : (t - s) / p = (z : ℚ)) : arangeCount s t p = z.toNat := by
  unfold arangeCount
  rw [if_neg hp, h, Int.ceil_intCast]

theorem arangeCount_ten_three : arangeCount 0 10 3 = 4 := by
  unfold arangeCount
  rw [if_neg (by norm_num)]
  have h : ⌈((10 : ℚ) - 0) / 3⌉ = 4 := by
    rw [Int.ceil_eq_iff]
    constructor <;> norm_num
  rw [h]
  rfl

theorem arangeCount_nine_three : arangeCount 0 9 3 = 3 := by
  rw [arangeCount_int 0 9 3 (by norm_num) 3 (by norm_num)]
  rfl

theorem arangeCount_four_one : arangeCount 0 4 1 = 4 := by
  rw [arangeCount_int 0 4 1 (by norm_num) 4 (by norm_num)]
  rfl

theorem arangeQ_four_one : arangeQ 0 4 1 = [0, 1, 2, 3] := by
  unfold arangeQ
  rw [arangeCount_four_one]
  simp [List.range_succ]

theorem arangeQ_ten_three : arangeQ 0 10 3 = [0, 3, 6, 9] := by
  unfold arangeQ
  rw [arangeCount_ten_three]
  simp [List.range_succ]
  norm_num

/-- C6 (amended): for an axis built from `(start, stop, step)` with at least
two samples, materialise-then-reduce succeeds and returns `start` and `step`
exactly, but the reduced stop is `start + n·step` (`n` the sample count) —
equal to the original `stop` only when `stop - start` is an exact multiple of
`step`; and reducing a deliberately non-uniform sequence (stored through the
`array` setter) raises the `ValueError` the spec calls `AxisError`. -/
theorem C6_reduce_roundtrip_spec :
    (∀ s t p : ℚ, p ≠ 0 → 2 ≤ arangeCount s t p →
      axisRoundTrip s t p = .ok ⟨"x", some (some s),
        some (some (s + (arangeCount s t p : ℚ) * p)), some (some p),
        none, some (arangeQ s t p), none⟩) ∧
    (nddata_axis.setArray ⟨"x", some none, some none, some none, none, none, none⟩
        [0, 1, 3]).reduce =
      .error (.valueError "Array must have evenly spaced values to be reduced") := by
  constructor
  · intro s t p hp hn
    have h1 : axisRoundTrip s t p =
        nddata_axis.reduce ⟨"x", some (some s), some (some t), some (some p),
          none, some (arangeQ s t p), none⟩ := rfl
    rw [h1, reduce_arange hp hn rfl]
  · refine reduce_not_arange rfl (by norm_num) ?_
    have harg1 : ([0, 1, 3] : List ℚ).getD 0 0 = 0 := rfl
    have harg2 : ([0, 1, 3] : List ℚ).getD 1 0 = 1 := rfl
    have harg3 : ([0, 1, 3] : List ℚ).getLast?.getD 0 = 3 := rfl
    rw [harg1, harg2, harg3]
    have harg4 : (3 : ℚ) + (1 - 0) = 4 := by norm_num
    have harg5 : (1 : ℚ) - 0 = 1 := by norm_num
    rw [harg4, harg5, arangeQ_four_one]
    intro h
    rw [List.cons.injEq, List.cons.injEq, List.cons.injEq] at h
    norm_num at h

/-- Witness for C6: the round trip applies at `(0, 9, 3)`, whose span is an
exact multiple of the step (3 samples), so the reduced triple is the
original. -/
theorem C6_reduce_roundtrip_spec_witness :
    axisRoundTrip 0 9 3 = .ok ⟨"x", some (some 0),
      some (some (0 + (arangeCount 0 9 3 : ℚ) * 3)), some (some 3),
      none, some (arangeQ 0 9 3), none⟩ :=
  C6_reduce_roundtrip_spec.1 0 9 3 (by norm_num)
    (by rw [arangeCount_nine_three]; omega)

/-- C6 counterexample: from the triple `(0, 10, 3)` the materialized sequence
is `[0, 3, 6, 9]` and reduction returns stop `12`, not `10` — off by `2`,
far beyond any floating tolerance — so the round trip does not return the
original triple. -/
theorem C6_roundtrip_changes_stop :
    axisRoundTrip 0 10 3 = .ok ⟨"x", some (some 0), some (some 12), some (some 3),
      none, some [0, 3, 6, 9], none⟩ ∧ (12 : ℚ) ≠ 10 := by
  constructor
  · have h1 : axisRoundTrip 0 10 3 =
        nddata_axis.reduce ⟨"x", some (some 0), some (some 10), some (some 3),
          none, some (arangeQ 0 10 3), none⟩ := rfl
    rw [h1, reduce_arange (by norm_num) (by rw [arangeCount_ten_three]; omega) rfl,
      arangeCount_ten_three, arangeQ_ten_three]
    norm_num
  · norm_num
